import Mathlib

/-!
Verification of the terminal progress/output multiplexer of the repository
(src/logger.ts, src/utils/color.ts).  Strings are modelled as lists of
characters (JS strings; lengths are modelled as code points, which agree
with UTF-16 code-unit counts on the BMP characters used by the source).
Terminal writes are modelled as a trace of terminal actions appended to an
output log.  Timestamps (JS Date values) are modelled as natural-number
clock readings; `os.EOL` is modelled as a line feed (POSIX).
-/

namespace Console

/-- A JS string, modelled as a list of characters. -/
abbrev Str := List Char

/-! ## String helpers used by the multiplexer -/

/-- JS `Math.ceil(a / b)` on non-negative integers with `b ≥ 1`
(the height estimator's contract requires `width ≥ 1`; the source reads
`stdOut.columns`, which is at least 1 on a real terminal). -/
def ceilDivNat (a b : Nat) : Nat := (a + b - 1) / b

/-- JS `String.prototype.split` on a newline: split a string on newline
characters.  Always returns at least one (possibly empty) segment. -/
def splitOnNl : Str → List Str
  | [] => [[]]
  | c :: rest =>
    if c = '\n' then [] :: splitOnNl rest
    else
      match splitOnNl rest with
      | [] => [[c]]
      | s :: ss => (c :: s) :: ss

/-- States of the escape-sequence scanner of `stripVT`. -/
inductive VTScan
  | normal
  | esc
  | csi
deriving DecidableEq

/-- Modelled from the spec: the call to node's `util.stripVTControlCharacters`
(external to the repository) removes all control/escape sequences before
measuring, so that escape sequences never count as printable columns (§4.1).
Modelled as a scanner that drops CSI sequences (escape, bracket, parameter
bytes up to a final byte in `0x40`–`0x7e`) and two-character escape sequences
and keeps every other character. -/
def stripVTAux : VTScan → Str → Str
  | _, [] => []
  | VTScan.normal, c :: rest =>
    if c = '\x1b' then stripVTAux VTScan.esc rest
    else c :: stripVTAux VTScan.normal rest
  | VTScan.esc, c :: rest =>
    if c = '[' then stripVTAux VTScan.csi rest
    else stripVTAux VTScan.normal rest
  | VTScan.csi, c :: rest =>
    if 0x40 ≤ c.toNat ∧ c.toNat ≤ 0x7e then stripVTAux VTScan.normal rest
    else stripVTAux VTScan.csi rest

/-- Strip VT control sequences (see `stripVTAux`). -/
def stripVT (s : Str) : Str := stripVTAux VTScan.normal s

/-- Embeds `getContentHeight` (src/logger.ts:1117): strip escape sequences,
split on line breaks, and accumulate `Math.max(1, Math.ceil(line.length /
width))` over the segments in a loop.  The terminal width (`stdOut.columns`
at call time in the source) is an explicit parameter. -/
def getContentHeight (width : Nat) (s : Str) : Nat :=
  (splitOnNl (stripVT s)).foldl (fun h line => h + max 1 (ceilDivNat line.length width)) 0

/-- JS `replaceAll` of a tab by three spaces: replace every tab character by
exactly three spaces (used by `addContentToBuffer`, src/logger.ts:1132). -/
def replaceTabs : Str → Str
  | [] => []
  | c :: rest =>
    if c = '\t' then ' ' :: ' ' :: ' ' :: replaceTabs rest
    else c :: replaceTabs rest

/-! ## ProgressHandle (TTYSpinner) -/

/-- The value of `TTYSpinner._icon`, of source type string, string array or
null (src/logger.ts:979). -/
inductive IconV
  | nul
  | single (s : Str)
  | frames (l : List Str)
deriving DecidableEq

/-- JS truthiness of an icon value: `null` is falsy, a string is truthy iff
non-empty, an array is always truthy. -/
def iconTruthy : IconV → Bool
  | IconV.nul => false
  | IconV.single s => !s.isEmpty
  | IconV.frames _ => true

/-- JS `.length` of an icon value (string length or array length; `null` has
no length and is excluded by the truthiness guard wherever the source reads
`.length`). -/
def iconLen : IconV → Nat
  | IconV.nul => 0
  | IconV.single s => s.length
  | IconV.frames l => l.length

/-- The value of `TTYSpinner._prefix`, of source type string, `false` or
undefined (src/logger.ts:975): a string, `false` (suppress the whole prefix
block), or absent. -/
inductive PfxOpt
  | undef
  | fls
  | str (s : Str)
deriving DecidableEq

/-- The `SpinnerOptions` fields read by `TTYSpinner` (src/logger.ts:757). -/
structure SpinnerOpts where
  optPfx : PfxOpt
  runningIcon : Option Str
  successIcon : Option Str
  failIcon : Option Str
  date : Bool
  duration : Bool
deriving DecidableEq

/-- A `TTYSpinner` (src/logger.ts:974).  `loggerEnabled` is the current
`enabled` flag of `this._logger`; `loggerPfx` models the rendered per-level
prefix string produced by `this._logger.getPrefix` joined by spaces, which
the spec declares an out-of-scope collaborator-supplied string (§1, §6). -/
structure Spinner where
  sPfx : PfxOpt
  sText : Str
  iconIndex : Nat
  icon : IconV
  startedAt : Option Nat
  stoppedAt : Option Nat
  opts : SpinnerOpts
  loggerEnabled : Bool
  loggerPfx : Str
deriving DecidableEq

/-- Modelled from the spec: the date and duration prefix renderings
(`getDatePrefix`, `getDurationPrefix`) are log-formatting glue declared out of
scope (§1); the multiplexer treats the rendered strings as opaque.
`datePfx` takes the start timestamp; `durationPfx` takes the start timestamp
and the resolved end timestamp (`stoppedAt`, or the current clock while the
handle still runs). -/
structure Fmt where
  datePfx : Nat → Str
  durationPfx : Nat → Nat → Str

/-- Embeds the `icon` setter (src/logger.ts:1007): stores the icon and resets
the frame index to 0. -/
def setIcon (sp : Spinner) (i : IconV) : Spinner :=
  { sp with icon := i, iconIndex := 0 }

/-- Embeds `TTYSpinner.spin` (src/logger.ts:1056): if started, not stopped,
and the icon is truthy with length greater than 1, advance the frame index,
wrapping to 0 when it reaches the icon length. -/
def spin (sp : Spinner) : Spinner :=
  if sp.startedAt.isSome ∧ sp.stoppedAt.isNone ∧ iconTruthy sp.icon ∧ 1 < iconLen sp.icon then
    { sp with iconIndex :=
        if sp.iconIndex + 1 ≥ iconLen sp.icon then 0 else sp.iconIndex + 1 }
  else sp

/-- Embeds `TTYSpinner.toString` (src/logger.ts:1068): optional level prefix
and prefix string (unless the prefix option is `false`), optional date
prefix, optional duration prefix, current icon (array indexing or plain
string), then the text.  `clock` models the current `Date` inside
`getDurationPrefix` while the spinner is still running. -/
def ttyToString (F : Fmt) (clock : Nat) (withLevelPfx : Bool) (sp : Spinner) : Str :=
  let pfxPart : Str :=
    match sp.sPfx with
    | PfxOpt.fls => []
    | PfxOpt.undef => if withLevelPfx then sp.loggerPfx ++ [' '] else []
    | PfxOpt.str p =>
      (if withLevelPfx then sp.loggerPfx ++ [' '] else []) ++
      (if p.isEmpty then [] else p ++ [' '])
  let datePart : Str :=
    match sp.startedAt with
    | some t0 => if sp.opts.date then F.datePfx t0 ++ [' '] else []
    | none => []
  let durPart : Str :=
    match sp.startedAt with
    | some t0 =>
      if sp.opts.duration then F.durationPfx t0 (sp.stoppedAt.getD clock) ++ [' '] else []
    | none => []
  let iconPart : Str :=
    match sp.icon with
    | IconV.frames l =>
      let e := l.getD sp.iconIndex []
      if e.isEmpty then [] else e ++ [' ']
    | IconV.single s => s ++ [' ']
    | IconV.nul => []
  pfxPart ++ datePart ++ durPart ++ iconPart ++ sp.sText

/-- Iterated animation advance: `spinIter n sp` applies `spin` `n` times. -/
def spinIter : Nat → Spinner → Spinner
  | 0, sp => sp
  | n + 1, sp => spinIter n (spin sp)

/-- Embeds `DEFAULT_TTY_SUCCESS_ICON` (src/logger.ts:969): the check mark colorized
green by `colorize` (src/utils/color.ts, color code 32). -/
def DEFAULT_TTY_SUCCESS_ICON : Str :=
  '\x1b' :: '[' :: '3' :: '2' :: 'm' :: '✔' :: '\x1b' :: '[' :: '0' :: 'm' :: []

/-- Embeds `DEFAULT_TTY_FAIL_ICON` (src/logger.ts:970): the cross colorized red by
`colorize` (src/utils/color.ts, color code 31). -/
def DEFAULT_TTY_FAIL_ICON : Str :=
  '\x1b' :: '[' :: '3' :: '1' :: 'm' :: '✖' :: '\x1b' :: '[' :: '0' :: 'm' :: []

/-- One frame of `DEFAULT_TTY_SPINNER` (src/logger.ts:965): a braille glyph
colorized cyan by `colorize` (src/utils/color.ts, color code 36). -/
def cyanFrame (c : Char) : Str :=
  '\x1b' :: '[' :: '3' :: '6' :: 'm' :: c :: '\x1b' :: '[' :: '0' :: 'm' :: []

/-- The default running-icon frame list: `DEFAULT_TTY_SPINNER` is built by
colorizing each braille glyph and joining on a two-character separator which
the `TTYSpinner` constructor immediately splits on again (src/logger.ts:998);
the net effect is this list of colorized frames. -/
def DEFAULT_TTY_SPINNER_FRAMES : List Str :=
  ['⠋', '⠙', '⠹', '⠸', '⠼', '⠴', '⠦', '⠧', '⠇', '⠏'].map cyanFrame

/-! ## TerminalMultiplexer state and operations -/

/-- One primitive terminal/console action.  `write`, `cursorTo`,
`moveCursor` and `clearLine` are the `stdOut` primitives used by the
multiplexer; `consoleLog` is an emission through the console methods of the
logging layer outside periodic mode; `consoleErr` is the last-resort
`console.error` channel of `outputLog`'s catch block. -/
inductive TermAct
  | write (s : Str)
  | cursorTo (n : Nat)
  | moveCursor (dx dy : Int)
  | clearLine (dir : Nat)
  | consoleLog (s : Str)
  | consoleErr (code : Nat)
deriving DecidableEq

/-- Embeds `os.EOL`, modelled as a line feed (POSIX). -/
def EOL : Str := ['\n']

/-- The hide-cursor escape sequence written by `startRefresh`
(src/logger.ts:1141). -/
def hideCursorStr : Str := '\x1b' :: '[' :: '?' :: '2' :: '5' :: 'l' :: []

/-- The show-cursor escape sequence written by `stopRefreshTTY`
(src/logger.ts:1178). -/
def showCursorStr : Str := '\x1b' :: '[' :: '?' :: '2' :: '5' :: 'h' :: []

/-- The module-level multiplexer state of src/logger.ts: the spinner store
(spinner objects addressed by identity), the insertion-ordered set
`runningSpinners`, the pending-line buffer `newBuffered`, the occupied-row
count `currentBufferHeight`, the two periodic timers (modelled as the
booleans `refreshing` for `spinnersRefreshInterval` and `ttyRefreshing` for
`ttyRefreshInterval`), the resize-listener registration, the trace of
terminal actions performed so far, the terminal width `stdOut.columns`, the
`stdOut.isTTY` flag, the root logger's `enabled` flag, and the current
clock. -/
structure MState where
  spinners : Nat → Spinner
  runningSpinners : List Nat
  newBuffered : List Str
  currentBufferHeight : Nat
  refreshing : Bool
  ttyRefreshing : Bool
  resizeListener : Bool
  output : List TermAct
  width : Nat
  isTTY : Bool
  rootEnabled : Bool
  clock : Nat

/-- Update one spinner in the store. -/
def updStore (f : Nat → Spinner) (id : Nat) (sp : Spinner) : Nat → Spinner :=
  fun j => if j = id then sp else f j

/-- JS `Set.prototype.add` on an insertion-ordered set of ids: append if
absent, keep the original position otherwise. -/
def setAdd (l : List Nat) (x : Nat) : List Nat :=
  if x ∈ l then l else l ++ [x]

/-- JS `Set.prototype.delete`: remove the element. -/
def setDelete (l : List Nat) (x : Nat) : List Nat :=
  l.filter (fun y => y ≠ x)

/-- Embeds `isRefreshing` (src/logger.ts:1127): the animation interval exists. -/
def isRefreshingB (st : MState) : Bool := st.refreshing

/-- Embeds `addContentToBuffer` (src/logger.ts:1131): replace tabs by three
spaces and push onto the pending-line buffer. -/
def addContentToBuffer (st : MState) (s : Str) : MState :=
  { st with newBuffered := st.newBuffered ++ [replaceTabs s] }

/-- The terminal actions of `clearTTY`'s erase loop (src/logger.ts:1162):
cursor to column 0, then for each occupied row: move up (except for the
first) and clear to end of line. -/
def clearActs (h : Nat) : List TermAct :=
  TermAct.cursorTo 0 ::
    ((List.range h).map (fun i =>
      (if 0 < i then [TermAct.moveCursor 0 (-1)] else []) ++ [TermAct.clearLine 1])).flatten

/-- Embeds `clearTTY` (src/logger.ts:1162): emit the erase loop and reset
`currentBufferHeight` to 0. -/
def clearTTY (st : MState) : MState :=
  { st with
    output := st.output ++ clearActs st.currentBufferHeight,
    currentBufferHeight := 0 }

/-- The renderings of the live handles in registration order
(`[...runningSpinners].map(sp => sp.toString())`; the source filters on
`instanceof TTYSpinner`, but only `TTYSpinner.start` ever adds to
`runningSpinners`, so the filter keeps every element). -/
def renderings (F : Fmt) (st : MState) : List Str :=
  st.runningSpinners.map (fun id => ttyToString F st.clock true (st.spinners id))

/-- The single frame string written by `refreshTTY`: the pending plain lines
followed by the live-handle renderings, joined by `os.EOL`. -/
def frameStr (F : Fmt) (st : MState) : Str :=
  List.intercalate EOL (st.newBuffered ++ renderings F st)

/-- Embeds `refreshTTY` (src/logger.ts:1192): no-op unless refreshing;
otherwise erase the previous frame (`clearTTY`), write the pending lines and
the live-handle renderings joined by `os.EOL` as one buffered write,
accumulate `getContentHeight` of each spinner rendering (and only of the
spinner renderings) into `currentBufferHeight`, and drain the pending
buffer. -/
def refreshTTY (F : Fmt) (st : MState) : MState :=
  if st.refreshing then
    let st1 := clearTTY st
    let contents := renderings F st1
    { st1 with
      output := st1.output ++
        [TermAct.write (List.intercalate EOL (st1.newBuffered ++ contents))],
      newBuffered := [],
      currentBufferHeight := st1.currentBufferHeight +
        (contents.map (getContentHeight st1.width)).sum }
  else st

/-- Embeds `startRefresh` (src/logger.ts:1139): when not refreshing and the
stream is a TTY, hide the cursor, install the resize listener, start both
intervals and perform one immediate redraw. -/
def startRefresh (F : Fmt) (st : MState) : MState :=
  if ¬ st.refreshing ∧ st.isTTY then
    refreshTTY F
      { st with
        output := st.output ++ [TermAct.write hideCursorStr],
        resizeListener := true,
        refreshing := true,
        ttyRefreshing := true }
  else st

/-- Embeds `stopRefreshTTY` (src/logger.ts:1174): when refreshing, perform
one final redraw, write `os.EOL` and the show-cursor sequence, remove the
resize listener, cancel both intervals and reset `currentBufferHeight`. -/
def stopRefreshTTY (F : Fmt) (st : MState) : MState :=
  if st.refreshing then
    let st1 := refreshTTY F st
    { st1 with
      output := st1.output ++ [TermAct.write EOL, TermAct.write showCursorStr],
      resizeListener := false,
      refreshing := false,
      ttyRefreshing := false,
      currentBufferHeight := 0 }
  else st

/-- Embeds `handleTerminalResize` (src/logger.ts:1154): recompute
`currentBufferHeight` from the current renderings of the running spinners at
the current width, then redraw. -/
def handleTerminalResize (F : Fmt) (st : MState) : MState :=
  refreshTTY F
    { st with currentBufferHeight := ((renderings F st).map (getContentHeight st.width)).sum }

/-- The body of the spin loop of the animation interval
(src/logger.ts:1144): call `spin` on every running spinner. -/
def spinAll (st : MState) : MState :=
  { st with spinners := fun j =>
      if j ∈ st.runningSpinners then spin (st.spinners j) else st.spinners j }

/-- The callback of `spinnersRefreshInterval` (src/logger.ts:1143), the
animation tick: advance every running spinner and then redraw.  The callback
only runs while the interval exists (`refreshing`). -/
def animationTick (F : Fmt) (st : MState) : MState :=
  if st.refreshing then refreshTTY F (spinAll st) else st

/-- The callback of `ttyRefreshInterval` (src/logger.ts:1149), the redraw
tick: redraw.  The callback only runs while the interval exists. -/
def redrawTick (F : Fmt) (st : MState) : MState :=
  if st.ttyRefreshing then refreshTTY F st else st

/-- Embeds the outermost behaviour of `outputLog` (src/logger.ts:122) for one
already-rendered line: disabled loggers emit nothing; while the multiplexer
is refreshing the line goes through `addContentToBuffer`
(src/logger.ts:207); otherwise it is emitted directly through the console
methods.  Level filtering, prefix construction, argument inspection and the
uid map are out-of-scope formatting glue (§1) represented by the
pre-rendered line. -/
def outputLogOp (st : MState) (en : Bool) (line : Str) : MState :=
  if ¬ en ∨ ¬ st.rootEnabled then st
  else if st.refreshing then addContentToBuffer st line
  else { st with output := st.output ++ [TermAct.consoleLog line] }

/-- Embeds `TTYSpinner.start` (src/logger.ts:1016): no-op when the root
logger or the handle's logger is disabled; no-op when already started;
otherwise record the start time, register into `runningSpinners`, start the
periodic mode if not active, and — only if still not refreshing (no TTY) —
emit one synchronous render through the logging path.  (The source spreads
the rendered string into the log call's arguments; the emitted line is
modelled as the rendered string.) -/
def startOp (F : Fmt) (id : Nat) (st : MState) : MState :=
  let sp := st.spinners id
  if ¬ st.rootEnabled ∨ ¬ sp.loggerEnabled then st
  else if sp.startedAt.isSome then st
  else
    let sp1 := { sp with startedAt := some st.clock }
    let st1 := { st with
      spinners := updStore st.spinners id sp1,
      runningSpinners := setAdd st.runningSpinners id }
    let st2 := if ¬ st1.refreshing then startRefresh F st1 else st1
    if ¬ st2.refreshing then
      outputLogOp st2 sp1.loggerEnabled (ttyToString F st2.clock false sp1)
    else st2

/-- Embeds `TTYSpinner.update` (src/logger.ts:1027): set the text,
unconditionally. -/
def updateOp (id : Nat) (txt : Str) (st : MState) : MState :=
  { st with spinners := updStore st.spinners id { st.spinners id with sText := txt } }

/-- Embeds `TTYSpinner.stop` (src/logger.ts:1043): when started and not yet
stopped, record the stop time, deregister, append the final rendering to the
pending buffer; then, outside periodic mode, emit the final rendering through
the logging path, and inside periodic mode tear the multiplexer down if this
was the last live handle. -/
def stopOp (F : Fmt) (id : Nat) (st : MState) : MState :=
  let sp := st.spinners id
  if sp.stoppedAt.isNone ∧ sp.startedAt.isSome then
    let sp1 := { sp with stoppedAt := some st.clock }
    let st1 := { st with
      spinners := updStore st.spinners id sp1,
      runningSpinners := setDelete st.runningSpinners id }
    let st2 := addContentToBuffer st1 (ttyToString F st1.clock true sp1)
    if ¬ st2.refreshing then
      outputLogOp st2 sp1.loggerEnabled (ttyToString F st2.clock false sp1)
    else if st2.runningSpinners.isEmpty then
      stopRefreshTTY F st2
    else st2
  else st

/-- Embeds `TTYSpinner.success` (src/logger.ts:1031): optionally set the
text, set the success icon, stop. -/
def successOp (F : Fmt) (id : Nat) (txt : Option Str) (st : MState) : MState :=
  let sp := st.spinners id
  let sp1 := match txt with | some t => { sp with sText := t } | none => sp
  let sp2 := setIcon sp1 (IconV.single (sp1.opts.successIcon.getD DEFAULT_TTY_SUCCESS_ICON))
  stopOp F id { st with spinners := updStore st.spinners id sp2 }

/-- Embeds `TTYSpinner.fail` (src/logger.ts:1037): optionally set the text,
set the fail icon, stop. -/
def failOp (F : Fmt) (id : Nat) (txt : Option Str) (st : MState) : MState :=
  let sp := st.spinners id
  let sp1 := match txt with | some t => { sp with sText := t } | none => sp
  let sp2 := setIcon sp1 (IconV.single (sp1.opts.failIcon.getD DEFAULT_TTY_FAIL_ICON))
  stopOp F id { st with spinners := updStore st.spinners id sp2 }

/-- The observable part of the multiplexer state: everything except the
spinner objects' private fields (and the constant environment). -/
structure Obs where
  newBuffered : List Str
  currentBufferHeight : Nat
  runningSpinners : List Nat
  refreshing : Bool
  ttyRefreshing : Bool
  resizeListener : Bool
  output : List TermAct
deriving DecidableEq

/-- Project the observables out of a state. -/
def obs (st : MState) : Obs :=
  ⟨st.newBuffered, st.currentBufferHeight, st.runningSpinners, st.refreshing,
   st.ttyRefreshing, st.resizeListener, st.output⟩

/-! ## Exception structure of the write paths -/

/-- A writer failure (stream closed, permission, pipe error). -/
structure WriteErr where
  code : Nat
deriving DecidableEq

/-- Run a sequence of terminal actions through a fallible writer, stopping at
the first failure. -/
def emitAll (w : TermAct → Except WriteErr Unit) : List TermAct → Except WriteErr Unit
  | [] => Except.ok ()
  | a :: rest =>
    match w a with
    | Except.ok _ => emitAll w rest
    | Except.error e => Except.error e

/-- The actions an operation appended to the trace. -/
def newActs (st st2 : MState) : List TermAct := st2.output.drop st.output.length

/-- The catch block of `outputLog` (src/logger.ts:218): report the error on
the last-resort `console.error` channel and return normally. -/
def consoleErrorOp (st : MState) (e : WriteErr) : MState :=
  { st with output := st.output ++ [TermAct.consoleErr e.code] }

/-- The try/catch skeleton of `outputLog` (src/logger.ts:128, 217) over a
fallible writer: the whole body runs inside `try`; on any failure the catch
block emits through `console.error` (modelled as a total last-resort channel)
and the call returns normally. -/
def outputLogExc (w : TermAct → Except WriteErr Unit) (st : MState) (en : Bool)
    (line : Str) : Except WriteErr MState :=
  let st2 := outputLogOp st en line
  match emitAll w (newActs st st2) with
  | Except.ok _ => Except.ok st2
  | Except.error e => Except.ok (consoleErrorOp st e)

/-- The `TTYSpinner.start` path over a fallible writer: `start` calls
`startRefresh`, whose `stdOut` writes (hide cursor, first frame) run with no
enclosing try/catch anywhere on the call chain from the logging call site
(`spin` factory → constructor → `start` → `startRefresh` → `stdOut.write`,
src/logger.ts:232, 1000, 1021, 1141), so a writer failure propagates. -/
def ttySpinnerStartExc (F : Fmt) (w : TermAct → Except WriteErr Unit) (id : Nat)
    (st : MState) : Except WriteErr MState :=
  let st2 := startOp F id st
  match emitAll w (newActs st st2) with
  | Except.ok _ => Except.ok st2
  | Except.error e => Except.error e

/-! ## Concrete example states -/

/-- A trivial formatting environment (the rendered prefixes are opaque to the
multiplexer). -/
def exF : Fmt := ⟨fun _ => [], fun _ _ => []⟩

/-- A spinner with prefix suppressed, plain single-character icon, no
date/duration, currently running. -/
def exRunSpinner : Spinner :=
  { sPfx := PfxOpt.fls
    sText := 'w' :: 'o' :: 'r' :: 'k' :: []
    iconIndex := 0
    icon := IconV.single ['o']
    startedAt := some 0
    stoppedAt := none
    opts :=
      { optPfx := PfxOpt.fls, runningIcon := none, successIcon := none,
        failIcon := none, date := false, duration := false }
    loggerEnabled := true
    loggerPfx := [] }

/-- An active multiplexer state: one pending plain line and one running
spinner, at width 80. -/
def exActive : MState :=
  { spinners := fun _ => exRunSpinner
    runningSpinners := [0]
    newBuffered := [('n' :: 'o' :: 't' :: 'e' :: [])]
    currentBufferHeight := 0
    refreshing := true
    ttyRefreshing := true
    resizeListener := true
    output := []
    width := 80
    isTTY := true
    rootEnabled := true
    clock := 5 }

/-- A stopped spinner (terminal state already reached). -/
def exStoppedSpinner : Spinner :=
  { exRunSpinner with sText := ['a'], stoppedAt := some 3 }

/-- An idle state holding only a stopped spinner. -/
def exStoppedSt : MState :=
  { exActive with
    spinners := fun _ => exStoppedSpinner
    runningSpinners := []
    newBuffered := []
    refreshing := false
    ttyRefreshing := false
    resizeListener := false }

/-- A fresh, never-started spinner. -/
def exFreshSpinner : Spinner :=
  { exRunSpinner with startedAt := none }

/-- An idle state holding a fresh spinner (nothing started yet). -/
def exIdleSt : MState :=
  { exActive with
    spinners := fun _ => exFreshSpinner
    runningSpinners := []
    newBuffered := []
    refreshing := false
    ttyRefreshing := false
    resizeListener := false }

/-- An idle state whose fresh spinner has a disabled logger. -/
def exDisabledSt : MState :=
  { exIdleSt with spinners := fun _ => { exFreshSpinner with loggerEnabled := false } }

/-- A running spinner with a two-frame icon. -/
def exFramesSpinner : Spinner :=
  { exRunSpinner with icon := IconV.frames [['a'], ['b']] }

/-- A fallible writer that always fails with code 7. -/
def wFail : TermAct → Except WriteErr Unit := fun _ => Except.error ⟨7⟩

/-! # Theorems -/

/-! ## String-level lemmas -/

theorem splitOnNl_ne_nil (s : Str) : splitOnNl s ≠ [] := by
  induction s with
  | nil => simp [splitOnNl]
  | cons c rest ih =>
    simp only [splitOnNl]
    split
    · simp
    · cases h : splitOnNl rest with
      | nil => simp
      | cons a as => simp

theorem foldl_add_max_eq_sum (f : Str → Nat) (l : List Str) (a : Nat) :
    l.foldl (fun h x => h + f x) a = a + (l.map f).sum := by
  induction l generalizing a with
  | nil => simp
  | cons x t ih =>
    simp only [List.foldl_cons, List.map_cons, List.sum_cons]
    rw [ih]
    omega

theorem replaceTabs_no_tab (s : Str) : ∀ c ∈ replaceTabs s, c ≠ '\t' := by
  induction s with
  | nil => simp [replaceTabs]
  | cons c rest ih =>
    simp only [replaceTabs]
    split
    · intro x hx
      simp only [List.mem_cons] at hx
      rcases hx with h | h | h | h
      · subst h; decide
      · subst h; decide
      · subst h; decide
      · exact ih x h
    · intro x hx
      simp only [List.mem_cons] at hx
      rcases hx with h | h
      · subst h
        rename_i hne
        exact hne
      · exact ih x h

/-- C4 — For every string and every width `≥ 1`, the height estimator strips
control/escape sequences, splits on line breaks, and returns the sum over the
segments of `max(1, ceil(visibleLength / width))`; the result is always at
least 1, even for the empty string. -/
theorem getContentHeight_spec (s : Str) (w : Nat) (hw : 1 ≤ w) :
    getContentHeight w s =
      ((splitOnNl (stripVT s)).map (fun seg => max 1 (ceilDivNat seg.length w))).sum ∧
    1 ≤ getContentHeight w s := by
  have hfold := foldl_add_max_eq_sum (fun seg => max 1 (ceilDivNat seg.length w))
    (splitOnNl (stripVT s)) 0
  constructor
  · simpa [getContentHeight] using hfold
  · have hne := splitOnNl_ne_nil (stripVT s)
    cases hsplit : splitOnNl (stripVT s) with
    | nil => exact absurd hsplit hne
    | cons a as =>
      have : getContentHeight w s =
          ((a :: as).map (fun seg => max 1 (ceilDivNat seg.length w))).sum := by
        simpa [getContentHeight, hsplit] using
          foldl_add_max_eq_sum (fun seg => max 1 (ceilDivNat seg.length w)) (a :: as) 0
      rw [this]
      simp only [List.map_cons, List.sum_cons]
      have h1 : 1 ≤ max 1 (ceilDivNat a.length w) := le_max_left _ _
      omega

/-- Witness for C4 at a concrete input: a two-line string with an escape
sequence, at width 4. -/
theorem getContentHeight_spec_witness :
    1 ≤ 4 ∧
    (getContentHeight 4 ('\x1b' :: '[' :: '3' :: '2' :: 'm' :: 'a' :: 'b' :: 'c' :: 'd' :: 'e' :: '\n' :: []) =
      ((splitOnNl (stripVT ('\x1b' :: '[' :: '3' :: '2' :: 'm' :: 'a' :: 'b' :: 'c' :: 'd' :: 'e' :: '\n' :: []))).map
        (fun seg => max 1 (ceilDivNat seg.length 4))).sum ∧
    1 ≤ getContentHeight 4 ('\x1b' :: '[' :: '3' :: '2' :: 'm' :: 'a' :: 'b' :: 'c' :: 'd' :: 'e' :: '\n' :: [])) :=
  ⟨by decide, getContentHeight_spec _ 4 (by decide)⟩

/-! ## Animation lemmas -/

theorem spin_fields (sp : Spinner) :
    (spin sp).icon = sp.icon ∧ (spin sp).startedAt = sp.startedAt ∧
    (spin sp).stoppedAt = sp.stoppedAt ∧ (spin sp).sText = sp.sText := by
  unfold spin
  split <;> simp

theorem spin_index_mod (sp : Spinner) (n : Nat)
    (hlen : iconLen sp.icon = n) (hn : 1 < n)
    (htruthy : iconTruthy sp.icon = true)
    (hst : sp.startedAt.isSome = true) (hns : sp.stoppedAt.isNone = true)
    (hidx : sp.iconIndex < n) :
    (spin sp).iconIndex = (sp.iconIndex + 1) % n := by
  unfold spin
  rw [if_pos ⟨hst, hns, htruthy, by omega⟩]
  simp only [hlen]
  split
  · have : sp.iconIndex + 1 = n := by omega
    simp [this]
  · have : (sp.iconIndex + 1) % n = sp.iconIndex + 1 := Nat.mod_eq_of_lt (by omega)
    simp [this]

theorem spinIter_index (n : Nat) (hn : 1 < n) :
    ∀ (k : Nat) (sp : Spinner),
      iconLen sp.icon = n → iconTruthy sp.icon = true →
      sp.startedAt.isSome = true → sp.stoppedAt.isNone = true →
      sp.iconIndex < n →
      (spinIter k sp).iconIndex = (sp.iconIndex + k) % n := by
  intro k
  induction k with
  | zero =>
    intro sp _ _ _ _ hidx
    simp [spinIter, Nat.mod_eq_of_lt hidx]
  | succ k ih =>
    intro sp hlen htruthy hst hns hidx
    have hf := spin_fields sp
    have hmod := spin_index_mod sp n hlen hn htruthy hst hns hidx
    have hidx' : (spin sp).iconIndex < n := by
      rw [hmod]; exact Nat.mod_lt _ (by omega)
    have hrec := ih (spin sp) (by rw [hf.1]; exact hlen)
      (by rw [hf.1]; exact htruthy)
      (by rw [hf.2.1]; exact hst) (by rw [hf.2.2.1]; exact hns) hidx'
    show (spinIter k (spin sp)).iconIndex = (sp.iconIndex + (k + 1)) % n
    rw [hrec, hmod, Nat.mod_add_mod]
    congr 1
    omega

/-- C7 — For a started, not-stopped handle whose running icon is a sequence of
`n` frames (`n > 1`) and whose frame index starts at 0, applying the animation
advance `n` times returns the frame index to 0, and after any number of
advances the index stays strictly below `n` (the advance is cyclic and never
reaches `n`). -/
theorem spin_cyclic (sp : Spinner) (n : Nat) (l : List Str)
    (hicon : sp.icon = IconV.frames l) (hlen : l.length = n) (hn : 1 < n)
    (hst : sp.startedAt.isSome = true) (hns : sp.stoppedAt.isNone = true)
    (hidx0 : sp.iconIndex = 0) :
    (spinIter n sp).iconIndex = 0 ∧ ∀ k, (spinIter k sp).iconIndex < n := by
  have hlen' : iconLen sp.icon = n := by rw [hicon]; simpa [iconLen] using hlen
  have htruthy : iconTruthy sp.icon = true := by rw [hicon]; rfl
  have hidx : sp.iconIndex < n := by omega
  constructor
  · have := spinIter_index n hn n sp hlen' htruthy hst hns hidx
    rw [this, hidx0]
    simp
  · intro k
    have := spinIter_index n hn k sp hlen' htruthy hst hns hidx
    rw [this]
    exact Nat.mod_lt _ (by omega)

/-- Witness for C7: a running spinner with a two-frame icon returns to frame
index 0 after 2 advances. -/
theorem spin_cyclic_witness :
    exFramesSpinner.icon = IconV.frames [['a'], ['b']] ∧
    ([(['a'] : Str), ['b']].length = 2 ∧ 1 < 2 ∧
      exFramesSpinner.startedAt.isSome = true ∧
      exFramesSpinner.stoppedAt.isNone = true ∧ exFramesSpinner.iconIndex = 0) ∧
    ((spinIter 2 exFramesSpinner).iconIndex = 0 ∧
      ∀ k, (spinIter k exFramesSpinner).iconIndex < 2) :=
  ⟨by decide, ⟨by decide, by decide, by decide, by decide, by decide⟩,
    spin_cyclic exFramesSpinner 2 [['a'], ['b']] (by decide) (by decide) (by decide)
      (by decide) (by decide) (by decide)⟩

/-! ## Multiplexer lemmas -/

theorem updStore_same (f : Nat → Spinner) (id : Nat) (sp : Spinner) :
    updStore f id sp id = sp := by
  simp [updStore]

/-- C3 — In every redraw frame produced while the multiplexer is active, the
buffered plain lines are written first, in arrival order, strictly before the
renderings of all live handles, which follow in registration order (all in
one single write), and the pending-line queue is fully drained. -/
theorem refresh_order_drain (F : Fmt) (st : MState) (hact : st.refreshing = true) :
    (refreshTTY F st).output =
      st.output ++ clearActs st.currentBufferHeight ++ [TermAct.write (frameStr F st)] ∧
    (refreshTTY F st).newBuffered = [] := by
  constructor <;>
    simp [refreshTTY, clearTTY, frameStr, renderings, hact]

/-- Witness for C3 at the concrete active state. -/
theorem refresh_order_drain_witness :
    exActive.refreshing = true ∧
    ((refreshTTY exF exActive).output =
      exActive.output ++ clearActs exActive.currentBufferHeight ++
        [TermAct.write (frameStr exF exActive)] ∧
    (refreshTTY exF exActive).newBuffered = []) :=
  ⟨rfl, refresh_order_drain exF exActive rfl⟩

/-- C9 — Every string appended to the pending-line buffer has each tab
character replaced by three spaces before it is stored, so the buffered
output path never contains a tab character. -/
theorem addContent_tab_free (st : MState) (s : Str)
    (hprev : ∀ e ∈ st.newBuffered, ∀ c ∈ e, c ≠ '\t') :
    (addContentToBuffer st s).newBuffered = st.newBuffered ++ [replaceTabs s] ∧
    ∀ e ∈ (addContentToBuffer st s).newBuffered, ∀ c ∈ e, c ≠ '\t' := by
  refine ⟨rfl, ?_⟩
  intro e he
  simp only [addContentToBuffer, List.mem_append, List.mem_singleton] at he
  rcases he with he | he
  · exact hprev e he
  · subst he
    exact replaceTabs_no_tab s

/-- Witness for C9: a line containing a tab, appended to an empty buffer. -/
theorem addContent_tab_free_witness :
    (∀ e ∈ exIdleSt.newBuffered, ∀ c ∈ e, c ≠ '\t') ∧
    ((addContentToBuffer exIdleSt ('a' :: '\t' :: 'b' :: [])).newBuffered =
      exIdleSt.newBuffered ++ [replaceTabs ('a' :: '\t' :: 'b' :: [])] ∧
    ∀ e ∈ (addContentToBuffer exIdleSt ('a' :: '\t' :: 'b' :: [])).newBuffered,
      ∀ c ∈ e, c ≠ '\t') :=
  ⟨by decide, addContent_tab_free exIdleSt ('a' :: '\t' :: 'b' :: []) (by decide)⟩

/-- C1 counterexample — at a state with one pending plain line and one
running spinner, the row count stored by the redraw (1: the spinner
rendering only) differs from the height estimator applied to the full
string actually written for the frame (2: pending line plus rendering),
so the next erase does not clear what was written. -/
theorem occupiedRows_claim_cex :
    (refreshTTY exF exActive).currentBufferHeight ≠
      getContentHeight exActive.width (frameStr exF exActive) := by
  decide

/-- C1 amended — after each redraw, the stored occupied-row count equals the
height estimator summed over the live-handle renderings only (each measured
at the width current at that time); the buffered plain lines written in the
same frame are not counted (they are left behind in scrollback rather than
erased by the next frame). -/
theorem occupiedRows_amended (F : Fmt) (st : MState) (hact : st.refreshing = true) :
    (refreshTTY F st).currentBufferHeight =
      ((renderings F st).map (getContentHeight st.width)).sum := by
  simp [refreshTTY, clearTTY, renderings, hact]

/-- Witness for the amended C1 at the concrete active state. -/
theorem occupiedRows_amended_witness :
    exActive.refreshing = true ∧
    (refreshTTY exF exActive).currentBufferHeight =
      ((renderings exF exActive).map (getContentHeight exActive.width)).sum :=
  ⟨rfl, occupiedRows_amended exF exActive rfl⟩

/-- C6 counterexample — the animation tick (the callback of
`spinnersRefreshInterval`) does not only advance frame indices: at a state
with a pending plain line it drains the pending buffer (and writes a frame),
contradicting the claim that it changes no other state and performs no
write. -/
theorem animation_tick_claim_cex :
    (animationTick exF exActive).newBuffered ≠ exActive.newBuffered ∧
    (animationTick exF exActive).output ≠ exActive.output := by
  constructor <;> decide

/-- C6 amended — the animation tick advances the frame index of every live
handle (wrapping per `spin`) and then performs one full redraw, which writes
to the terminal and drains the buffer; the frame-advance step by itself
(`spinAll`) performs no write and changes no state other than the frame
indices of the live handles. -/
theorem animation_tick_amended (F : Fmt) (st : MState) (hact : st.refreshing = true) :
    animationTick F st = refreshTTY F (spinAll st) ∧
    (spinAll st).output = st.output ∧
    (spinAll st).newBuffered = st.newBuffered ∧
    (spinAll st).currentBufferHeight = st.currentBufferHeight ∧
    (spinAll st).runningSpinners = st.runningSpinners ∧
    (∀ i, ((spinAll st).spinners i).sText = (st.spinners i).sText) ∧
    (∀ i, i ∉ st.runningSpinners → (spinAll st).spinners i = st.spinners i) ∧
    (∀ i, i ∈ st.runningSpinners → (spinAll st).spinners i = spin (st.spinners i)) := by
  refine ⟨by simp [animationTick, hact], rfl, rfl, rfl, rfl, ?_, ?_, ?_⟩
  · intro i
    show (if i ∈ st.runningSpinners then spin (st.spinners i) else st.spinners i).sText = _
    split
    · exact (spin_fields _).2.2.2
    · rfl
  · intro i hi
    show (if i ∈ st.runningSpinners then spin (st.spinners i) else st.spinners i) = _
    simp [hi]
  · intro i hi
    show (if i ∈ st.runningSpinners then spin (st.spinners i) else st.spinners i) = _
    simp [hi]

/-- Witness for the amended C6 at the concrete active state. -/
theorem animation_tick_amended_witness :
    exActive.refreshing = true ∧
    (animationTick exF exActive = refreshTTY exF (spinAll exActive) ∧
    (spinAll exActive).output = exActive.output ∧
    (spinAll exActive).newBuffered = exActive.newBuffered ∧
    (spinAll exActive).currentBufferHeight = exActive.currentBufferHeight ∧
    (spinAll exActive).runningSpinners = exActive.runningSpinners ∧
    (∀ i, ((spinAll exActive).spinners i).sText = (exActive.spinners i).sText) ∧
    (∀ i, i ∉ exActive.runningSpinners → (spinAll exActive).spinners i = exActive.spinners i) ∧
    (∀ i, i ∈ exActive.runningSpinners →
      (spinAll exActive).spinners i = spin (exActive.spinners i))) :=
  ⟨rfl, animation_tick_amended exF exActive rfl⟩

/-- C2 counterexample — `update` after a terminal call is not a no-op on the
handle's state: on a stopped handle with text "a", `update("b")` overwrites
the stored text. -/
theorem terminal_idempotence_cex :
    ((updateOp 0 ['b'] exStoppedSt).spinners 0).sText ≠ (exStoppedSt.spinners 0).sText := by
  decide

/-- C2 amended — once a handle has reached a terminal state: `stop` is a
complete no-op; repeated `success`/`fail` and late `update` calls leave every
observable of the multiplexer (buffer contents, occupied rows, live set,
terminal output, timers) unchanged and do not re-register the handle, though
they may still overwrite the handle's private text and icon fields. -/
theorem terminal_idempotence_amended (F : Fmt) (st : MState) (id : Nat) (t0 : Nat) (txt : Str)
    (hstopped : (st.spinners id).stoppedAt = some t0) :
    stopOp F id st = st ∧
    obs (updateOp id txt st) = obs st ∧
    obs (successOp F id (some txt) st) = obs st ∧
    obs (successOp F id none st) = obs st ∧
    obs (failOp F id (some txt) st) = obs st ∧
    obs (failOp F id none st) = obs st := by
  have hbase : ∀ (sp2 : Spinner), sp2.stoppedAt = some t0 →
      stopOp F id { st with spinners := updStore st.spinners id sp2 } =
        { st with spinners := updStore st.spinners id sp2 } := by
    intro sp2 h2
    simp [stopOp, updStore, h2]
  refine ⟨by simp [stopOp, hstopped], rfl, ?_, ?_, ?_, ?_⟩
  · simp only [successOp]
    rw [hbase _ (by simp [setIcon, hstopped])]
    rfl
  · simp only [successOp]
    rw [hbase _ (by simp [setIcon, hstopped])]
    rfl
  · simp only [failOp]
    rw [hbase _ (by simp [setIcon, hstopped])]
    rfl
  · simp only [failOp]
    rw [hbase _ (by simp [setIcon, hstopped])]
    rfl

/-- Witness for the amended C2 at a concrete stopped handle. -/
theorem terminal_idempotence_amended_witness :
    (exStoppedSt.spinners 0).stoppedAt = some 3 ∧
    (stopOp exF 0 exStoppedSt = exStoppedSt ∧
    obs (updateOp 0 ['b'] exStoppedSt) = obs exStoppedSt ∧
    obs (successOp exF 0 (some ['b']) exStoppedSt) = obs exStoppedSt ∧
    obs (successOp exF 0 none exStoppedSt) = obs exStoppedSt ∧
    obs (failOp exF 0 (some ['b']) exStoppedSt) = obs exStoppedSt ∧
    obs (failOp exF 0 none exStoppedSt) = obs exStoppedSt) :=
  ⟨rfl, terminal_idempotence_amended exF exStoppedSt 0 3 ['b'] rfl⟩

/-- C10 — When the root logger or the handle's logger is disabled at the
moment `start` is called on a never-started terminal handle, `start` is a
complete no-op (in particular `startedAt` stays unset, nothing is registered,
periodic mode is not entered, nothing is written), and every subsequent
`stop`, `success`, `fail` or `update` emits no output and registers nothing
(the handle was never started). -/
theorem disabled_start_noop (F : Fmt) (st : MState) (id : Nat) (txt : Str)
    (hdis : st.rootEnabled = false ∨ (st.spinners id).loggerEnabled = false)
    (hfresh : (st.spinners id).startedAt = none) :
    startOp F id st = st ∧
    ((startOp F id st).spinners id).startedAt = none ∧
    stopOp F id st = st ∧
    obs (successOp F id (some txt) st) = obs st ∧
    obs (successOp F id none st) = obs st ∧
    obs (failOp F id (some txt) st) = obs st ∧
    obs (failOp F id none st) = obs st ∧
    obs (updateOp id txt st) = obs st := by
  have hdis' : ¬ st.rootEnabled = true ∨ ¬ (st.spinners id).loggerEnabled = true := by
    rcases hdis with h | h
    · left; simp [h]
    · right; simp [h]
  have hstart : startOp F id st = st := by
    simp only [startOp]
    rw [if_pos hdis']
  have hbase : ∀ (sp2 : Spinner), sp2.startedAt = none →
      stopOp F id { st with spinners := updStore st.spinners id sp2 } =
        { st with spinners := updStore st.spinners id sp2 } := by
    intro sp2 h2
    simp [stopOp, updStore, h2]
  refine ⟨hstart, by rw [hstart]; exact hfresh, by simp [stopOp, hfresh], ?_, ?_, ?_, ?_, rfl⟩
  · simp only [successOp]
    rw [hbase _ (by simp [setIcon, hfresh])]
    rfl
  · simp only [successOp]
    rw [hbase _ (by simp [setIcon, hfresh])]
    rfl
  · simp only [failOp]
    rw [hbase _ (by simp [setIcon, hfresh])]
    rfl
  · simp only [failOp]
    rw [hbase _ (by simp [setIcon, hfresh])]
    rfl

/-- Witness for C10 at a concrete disabled, never-started handle. -/
theorem disabled_start_noop_witness :
    (exDisabledSt.rootEnabled = false ∨ (exDisabledSt.spinners 0).loggerEnabled = false) ∧
    (exDisabledSt.spinners 0).startedAt = none ∧
    (startOp exF 0 exDisabledSt = exDisabledSt ∧
    ((startOp exF 0 exDisabledSt).spinners 0).startedAt = none ∧
    stopOp exF 0 exDisabledSt = exDisabledSt ∧
    obs (successOp exF 0 (some ['b']) exDisabledSt) = obs exDisabledSt ∧
    obs (successOp exF 0 none exDisabledSt) = obs exDisabledSt ∧
    obs (failOp exF 0 (some ['b']) exDisabledSt) = obs exDisabledSt ∧
    obs (failOp exF 0 none exDisabledSt) = obs exDisabledSt ∧
    obs (updateOp 0 ['b'] exDisabledSt) = obs exDisabledSt) :=
  ⟨Or.inr rfl, rfl, disabled_start_noop exF exDisabledSt 0 ['b'] (Or.inr rfl) rfl⟩

/-- C5 — When the last live handle stops while the multiplexer is active,
exactly one more frame is produced (the flush, containing the pending lines
and the handle's final rendering), followed by a trailing newline and the
show-cursor sequence; the resize listener is removed, both periodic timers
are cancelled, the occupied-row count is reset to 0, and no further terminal
writes occur (redraws and ticks become no-ops) until a new handle starts. -/
theorem teardown_after_last_stop (F : Fmt) (st : MState) (id : Nat) (t0 : Nat)
    (hact : st.refreshing = true)
    (hlast : st.runningSpinners = [id])
    (hstarted : (st.spinners id).startedAt = some t0)
    (hrunning : (st.spinners id).stoppedAt = none) :
    (stopOp F id st).refreshing = false ∧
    (stopOp F id st).ttyRefreshing = false ∧
    (stopOp F id st).resizeListener = false ∧
    (stopOp F id st).currentBufferHeight = 0 ∧
    (stopOp F id st).output =
      st.output ++ clearActs st.currentBufferHeight ++
        [TermAct.write (List.intercalate EOL (st.newBuffered ++
          [replaceTabs (ttyToString F st.clock true
            { st.spinners id with stoppedAt := some st.clock })]))] ++
        [TermAct.write EOL, TermAct.write showCursorStr] ∧
    refreshTTY F (stopOp F id st) = stopOp F id st ∧
    animationTick F (stopOp F id st) = stopOp F id st ∧
    redrawTick F (stopOp F id st) = stopOp F id st := by
  have hdel : setDelete st.runningSpinners id = [] := by
    rw [hlast]
    simp [setDelete]
  refine ⟨?_, ?_, ?_, ?_, ?_, ?_, ?_, ?_⟩ <;>
    simp [stopOp, hrunning, hstarted, hdel, hact, addContentToBuffer, outputLogOp,
      stopRefreshTTY, refreshTTY, clearTTY, renderings, frameStr, animationTick,
      redrawTick, spinAll, updStore]

/-- Witness for C5 at the concrete active state with a single live handle. -/
theorem teardown_after_last_stop_witness :
    (exActive.refreshing = true ∧ exActive.runningSpinners = [0] ∧
      (exActive.spinners 0).startedAt = some 0 ∧ (exActive.spinners 0).stoppedAt = none) ∧
    ((stopOp exF 0 exActive).refreshing = false ∧
    (stopOp exF 0 exActive).ttyRefreshing = false ∧
    (stopOp exF 0 exActive).resizeListener = false ∧
    (stopOp exF 0 exActive).currentBufferHeight = 0 ∧
    (stopOp exF 0 exActive).output =
      exActive.output ++ clearActs exActive.currentBufferHeight ++
        [TermAct.write (List.intercalate EOL (exActive.newBuffered ++
          [replaceTabs (ttyToString exF exActive.clock true
            { exActive.spinners 0 with stoppedAt := some exActive.clock })]))] ++
        [TermAct.write EOL, TermAct.write showCursorStr] ∧
    refreshTTY exF (stopOp exF 0 exActive) = stopOp exF 0 exActive ∧
    animationTick exF (stopOp exF 0 exActive) = stopOp exF 0 exActive ∧
    redrawTick exF (stopOp exF 0 exActive) = stopOp exF 0 exActive) :=
  ⟨⟨rfl, rfl, rfl, rfl⟩, teardown_after_last_stop exF exActive 0 0 rfl rfl rfl rfl⟩

/-- C8 counterexample — a writer exception is not caught on every path from
the logging call site: the TTY spinner start path (`spin` factory →
constructor → `start` → `startRefresh` → `stdOut.write`) performs its writes
with no enclosing try/catch, so with a failing writer the call raises
instead of returning normally. -/
theorem writer_exception_propagates_cex :
    ttySpinnerStartExc exF wFail 0 exIdleSt = Except.error ⟨7⟩ := by
  rfl

/-- C8 amended — exceptions thrown inside the log-emission path are caught at
`outputLog`'s outermost try/catch and degrade to a best-effort last-resort
emission, so that path always returns normally; the TTY spinner start/redraw
path, however, writes outside any try/catch and can propagate writer
failures. -/
theorem outputLog_never_raises (w : TermAct → Except WriteErr Unit) (st : MState)
    (en : Bool) (line : Str) :
    ∃ st2, outputLogExc w st en line = Except.ok st2 := by
  unfold outputLogExc
  cases h : emitAll w (newActs st (outputLogOp st en line)) with
  | ok u => exact ⟨outputLogOp st en line, by simp [h]⟩
  | error e => exact ⟨consoleErrorOp st e, by simp [h]⟩

end Console
